import Mathlib

/-!
Verification development for the `musakbrainz` music-collection
reconciliation tool (`src/musakbrainz.py`).  The Python source is shallowly
embedded below: each `def` mirrors one Python function (or one inlined code
block) of the source, with Python dictionaries modelled as structures,
absent dictionary keys as `Option`, and the MusicBrainz web-service calls
replaced by explicit input data (`SearchItem.fetch`), so that a failing
detail fetch is a `none` field rather than an exception.
-/

/-! ### Python string primitives used by the source -/

/-- Whitespace characters stripped by Python's `str.strip()` (ASCII range). -/
def isPyWhitespace (c : Char) : Bool :=
  c = ' ' || c = '\t' || c = '\n' || c = '\r' || c = '\x0b' || c = '\x0c'

/-- Python's `s.strip()`: remove leading and trailing whitespace. -/
def pyStrip (s : String) : String :=
  String.mk (((s.data.dropWhile isPyWhitespace).reverse.dropWhile isPyWhitespace).reverse)

/-- Digit-sequence parser backing `pyInt`: accepts `digit+` with single
underscores between digits (Python 3 literal rule for `int(str)`), and
returns the decimal value. -/
def pyIntDigits (cs : List Char) : Option Nat :=
  match cs.foldl
      (fun st c =>
        match st with
        | none => none
        | some (acc, lastDigit) =>
          if c.isDigit then some (acc * 10 + (c.toNat - 48), true)
          else if c = '_' && lastDigit then some (acc, false)
          else none)
      (some (0, false)) with
  | some (n, true) => some n
  | _ => none

/-- Python's `int(s)` on a string: strip whitespace, optional sign, decimal
digits; `none` models the `ValueError` raised on any other input. -/
def pyInt (s : String) : Option Int :=
  match (pyStrip s).data with
  | '+' :: rest => (pyIntDigits rest).map (fun n => (n : Int))
  | '-' :: rest => (pyIntDigits rest).map (fun n => -(n : Int))
  | rest => (pyIntDigits rest).map (fun n => (n : Int))

/-- Python's format spec `f"{s:<{width}}"`: pad `s` on the right with spaces
up to `width`; a string already at least `width` long is left unchanged. -/
def padColumn (s : String) (width : Nat) : String :=
  s ++ String.mk (List.replicate (width - s.length) ' ')

/-! ### Side-by-side renderer (`side_by_side_format`, lines 296-310) -/

/-- One row of the aligned two-column output: either a unified row (both
sides identical) or a paired row carrying both sides. -/
inductive AlignedLine where
  | Unified (text : String)
  | Paired (leftText rightText : String)
deriving DecidableEq, Inhabited

/-- The alignment step of `side_by_side_format`: walk index `i` up to
`max(len(lines_left), len(lines_right))`, treat a missing element as `""`,
and unify exactly when `unify_if_identical and l.strip() and (l == r)`. -/
def side_by_side_align (lines_left lines_right : List String)
    (unify_if_identical : Bool) : List AlignedLine :=
  (List.range (max lines_left.length lines_right.length)).map (fun i =>
    let l := lines_left.getD i ""
    let r := lines_right.getD i ""
    if unify_if_identical && !(pyStrip l == "") && l == r then
      AlignedLine.Unified l
    else
      AlignedLine.Paired l r)

/-- The rendering step of `side_by_side_format`: `f"== {l}"` for a unified
row, `f"{l:<{left_width}} | {r}"` for a paired row. -/
def renderAligned (left_width : Nat) : AlignedLine → String
  | AlignedLine.Unified t => "== " ++ t
  | AlignedLine.Paired l r => padColumn l left_width ++ " | " ++ r

/-- `side_by_side_format(lines_left, lines_right, left_width,
unify_if_identical)` from the source, producing the list of rendered rows. -/
def side_by_side_format (lines_left lines_right : List String)
    (left_width : Nat) (unify_if_identical : Bool) : List String :=
  (List.range (max lines_left.length lines_right.length)).map (fun i =>
    let l := lines_left.getD i ""
    let r := lines_right.getD i ""
    if unify_if_identical && !(pyStrip l == "") && l == r then
      "== " ++ l
    else
      padColumn l left_width ++ " | " ++ r)

/-! ### Local tracks and the report assembler's sort key (lines 366-373) -/

/-- One local audio file's extracted metadata (the `track_info` dict built
by `gather_all_local_tracks`). -/
structure LocalTrack where
  full_path : String
  subdir : String
  filename : String
  title : String
  artist : Option String
  tracknumber : Option String
deriving DecidableEq, Inhabited

/-- The numeric component of `track_sort_key`:
`int(t["tracknumber"]) if t["tracknumber"] else 9999`, with a
`ValueError` from `int` also yielding the 9999 sentinel. -/
def track_num (tn : Option String) : Int :=
  match tn with
  | none => 9999
  | some s =>
    if s = "" then 9999
    else
      match pyInt s with
      | some v => v
      | none => 9999

/-- `track_sort_key(t)` from `generate_side_by_side_diff`: the pair
`(t["subdir"], num)` used as the key of Python's stable `sorted`. -/
def track_sort_key (t : LocalTrack) : String × Int :=
  (t.subdir, track_num t.tracknumber)

/-- Python's ordering on the `(subdir, num)` key tuples: lexicographic,
strings by code points (the order on their character lists, which is how
`String` instances order strings as well) and then integers. -/
def keyLt (a b : String × Int) : Prop :=
  a.1.data < b.1.data ∨ (a.1 = b.1 ∧ a.2 < b.2)

instance (a b : String × Int) : Decidable (keyLt a b) := by
  unfold keyLt; infer_instance

/-! ### MusicBrainz data model (nested dictionaries of a release record) -/

/-- One entry of a release's `artist-credit` list: a bare string, a dict
carrying an `artist` sub-dict with a `name`, or a dict without an `artist`
key (skipped by both flattening sites in the source). -/
inductive ArtistCredit where
  | nameStr (s : String)
  | credited (artistName : String)
  | otherDict
deriving DecidableEq, Inhabited

/-- One entry of a medium's `track-list` (fields read by the source). -/
structure MBTrack where
  position : Option String
  recording_title : String
  recording_id : Option String
  artist_credit_phrase : Option String
deriving DecidableEq, Inhabited

/-- One entry of a release's `medium-list`. -/
structure Medium where
  track_list : List MBTrack
deriving DecidableEq, Inhabited

/-- The `release-group` dict nested in a release record; either key may be
absent. `none` at the use sites models both an absent dict and an empty
(falsy) one. -/
structure ReleaseGroup where
  id : Option String
  title : Option String
deriving DecidableEq, Inhabited

/-- A full MusicBrainz release record (`full["release"]`), restricted to
the keys the source reads. -/
structure Release where
  id : Option String
  title : Option String
  artist_credit : List ArtistCredit
  release_group : Option ReleaseGroup
  medium_list : List Medium
deriving DecidableEq, Inhabited

/-- One search hit together with the outcome of its
`get_release_by_id` detail fetch: `rid` is the `id` of the search result,
and `fetch = none` models a `musicbrainzngs.WebServiceError` raised by the
detail fetch (caught and skipped by the source). -/
structure SearchItem where
  rid : String
  fetch : Option Release
deriving DecidableEq, Inhabited

/-! ### Track counting and per-group best release (lines 167-190) -/

/-- `get_mb_release_total_tracks(mb_release)`: total number of tracks
across all mediums. -/
def get_mb_release_total_tracks (r : Release) : Nat :=
  r.medium_list.foldl (fun total m => total + m.track_list.length) 0

/-- `abs(count - local_track_count)` for one release. -/
def track_diff (r : Release) (local_track_count : Nat) : Nat :=
  ((get_mb_release_total_tracks r : Int) - (local_track_count : Int)).natAbs

/-- `get_best_release_for_rg(rg_releases, local_track_count)` from the
source: scan the group's releases keeping the first one whose track-count
difference is strictly smaller than the best so far; `(None, None)` on an
empty list. -/
def get_best_release_for_rg (rg_releases : List Release)
    (local_track_count : Nat) : Option Release × Option Nat :=
  rg_releases.foldl
    (fun acc r =>
      match acc with
      | (none, _) => (some r, some (track_diff r local_track_count))
      | (some b, some bd) =>
        if track_diff r local_track_count < bd then
          (some r, some (track_diff r local_track_count))
        else (some b, some bd)
      | (some b, none) => (some b, none))
    (none, none)

/-- The same scan specialised to a group known to be non-empty (groups
built by `find_best_release_group` always are): fold over the tail starting
from the head. -/
def best_in_group (r0 : Release) (rest : List Release)
    (local_track_count : Nat) : Release × Nat :=
  rest.foldl
    (fun acc r =>
      if track_diff r local_track_count < acc.2 then
        (r, track_diff r local_track_count)
      else acc)
    (r0, track_diff r0 local_track_count)

/-! ### Grouping by release-group id (lines 215-238) -/

/-- The grouping dict `{ rgid -> list of release_dicts }`, modelled as an
insertion-ordered association list with the (always non-empty) member list
split into first member and tail, mirroring Python's insertion-ordered
`dict` with `setdefault(...).append(...)`. -/
abbrev GroupBuckets := List (String × Release × List Release)

/-- `groups.setdefault(rgid, []).append(release_data)`: append to an
existing bucket, else add a new bucket at the end. -/
def insert_group : GroupBuckets → String → Release → GroupBuckets
  | [], key, rel => [(key, rel, [])]
  | (k, r0, rs) :: rest, key, rel =>
    if k = key then (k, r0, rs ++ [rel]) :: rest
    else (k, r0, rs) :: insert_group rest key rel

/-- The grouping key of one fetched release: the release-group `id` when
the release-group dict is present (truthy) and carries an `id`, else the
synthetic `"NO_RG_" + rid` built from the search result's release id. -/
def rg_key (rid : String) (rel : Release) : String :=
  match rel.release_group with
  | none => "NO_RG_" ++ rid
  | some rg =>
    match rg.id with
    | none => "NO_RG_" ++ rid
    | some g => g

/-- The grouping loop of `find_best_release_group`: walk the search
results in order, skip candidates whose detail fetch failed, and bucket the
surviving full records by `rg_key`. -/
def build_groups (found : List SearchItem) : GroupBuckets :=
  found.foldl
    (fun gs item =>
      match item.fetch with
      | none => gs
      | some rel => insert_group gs (rg_key item.rid rel) rel)
    []

/-- The search results whose detail fetch succeeded, paired with their full
records, in search order. -/
def successes (found : List SearchItem) : List (SearchItem × Release) :=
  found.filterMap (fun item => item.fetch.map (fun rel => (item, rel)))

/-- The member releases of the bucket keyed `key` (in insertion order);
`[]` when no such bucket exists. -/
def group_members : GroupBuckets → String → List Release
  | [], _ => []
  | (k, r0, rs) :: rest, key =>
    if k = key then r0 :: rs else group_members rest key

/-- The bucket keys in bucket order. -/
def group_keys (gs : GroupBuckets) : List String :=
  gs.map (fun g => g.1)

/-- First-occurrence deduplication: keeps the first occurrence of each
element, in order of first appearance. -/
def dedupKeep : List String → List String
  | [] => []
  | k :: ks => k :: dedupKeep (ks.filter (fun x => x != k))
termination_by l => l.length
decreasing_by
  simp only [List.length_cons]
  exact Nat.lt_succ_of_le (List.length_filter_le _ _)

/-! ### Candidate scoring, sorting, tie-break (lines 240-293) -/

/-- One entry of the `rg_candidates` list:
`(rgid, best_release_in_rg, best_diff_in_rg, release_group_dict)`. -/
structure RGCand where
  rgid : String
  best_rel : Release
  best_diff : Nat
  rg_dict : Option ReleaseGroup
deriving DecidableEq, Inhabited

/-- Build one `rg_candidates` entry from one bucket: the `rg_dict` is the
first member's `release-group` dict (`releases_in_group[0].get(...)`), and
the representative release and difference come from
`get_best_release_for_rg`. -/
def cand_of_group (g : String × Release × List Release)
    (local_track_count : Nat) : RGCand :=
  let p := best_in_group g.2.1 g.2.2 local_track_count
  ⟨g.1, p.1, p.2, g.2.1.release_group⟩

/-- The `rg_candidates` list before sorting, in bucket (first-encounter)
order. -/
def rg_candidates_of (found : List SearchItem) (local_track_count : Nat) :
    List RGCand :=
  (build_groups found).map (fun g => cand_of_group g local_track_count)

/-- The comparison used by `rg_candidates.sort(key=lambda x: x[2])`. -/
def candLE (a b : RGCand) : Prop := a.best_diff ≤ b.best_diff

instance : DecidableRel candLE := fun a b => Nat.decLe a.best_diff b.best_diff

instance : IsTotal RGCand candLE := ⟨fun a b => Nat.le_total a.best_diff b.best_diff⟩

instance : IsTrans RGCand candLE := ⟨fun _ _ _ h1 h2 => Nat.le_trans h1 h2⟩

/-- `rg_candidates` after the in-place stable sort on `best_diff`. -/
def sorted_candidates_of (found : List SearchItem) (local_track_count : Nat) :
    List RGCand :=
  List.insertionSort candLE (rg_candidates_of found local_track_count)

/-- `min_diff = rg_candidates[0][2]` read off the sorted list. -/
def min_diff_of (found : List SearchItem) (local_track_count : Nat) : Nat :=
  ((sorted_candidates_of found local_track_count).headD default).best_diff

/-- `best_list = [c for c in rg_candidates if c[2] == min_diff]` (the
comprehension runs over the already-sorted list). -/
def tied_best_list (found : List SearchItem) (local_track_count : Nat) :
    List RGCand :=
  (sorted_candidates_of found local_track_count).filter
    (fun c => c.best_diff == min_diff_of found local_track_count)

/-- The disambiguation loop (lines 282-293): each element of `inputs` is
one line returned by `input()`.  A stripped-empty line cancels to
`(None, None)`; a line parsing to a number in `1..len(best_list)` selects
that candidate; any other line re-prompts on the remaining inputs.  The
outer `none` models the input stream running dry (the Python loop would
block for more input). -/
def resolve_tie (best_list : List RGCand) :
    List String → Option (Option (Release × Option ReleaseGroup))
  | [] => none
  | choice :: rest =>
    let c := pyStrip choice
    if c = "" then some none
    else
      match pyInt choice with
      | some idx =>
        if 1 ≤ idx ∧ idx ≤ (best_list.length : Int) then
          let sel := best_list.getD (idx - 1).toNat default
          some (some (sel.best_rel, sel.rg_dict))
        else resolve_tie best_list rest
      | none => resolve_tie best_list rest

/-- `find_best_release_group(artist_name, album_name, local_track_count)`
with the web service abstracted to the `found` list (search results plus
detail-fetch outcomes) and the terminal abstracted to `inputs`.  The result
is `some (None, None)`-shaped exactly as in the source: `some none` for "no
match", `some (some (best_release, rg_dict))` for a selection, and the
outer `none` only when a tie exhausts `inputs`. -/
def find_best_release_group (found : List SearchItem)
    (local_track_count : Nat) (inputs : List String) :
    Option (Option (Release × Option ReleaseGroup)) :=
  if found = [] then some none
  else if build_groups found = [] then some none
  else if (tied_best_list found local_track_count).length = 1 then
    some (some (((tied_best_list found local_track_count).headD default).best_rel,
                ((tied_best_list found local_track_count).headD default).rg_dict))
  else resolve_tie (tied_best_list found local_track_count) inputs

/-! ### Artist-credit flattening (lines 271-278 and 326-332) -/

/-- The names resolved from an `artist-credit` list: `cred['artist']['name']`
for a dict with an `artist` key, the string itself for a bare string,
nothing for any other dict. -/
def credit_names (credits : List ArtistCredit) : List String :=
  credits.filterMap (fun c =>
    match c with
    | ArtistCredit.nameStr s => some s
    | ArtistCredit.credited name => some name
    | ArtistCredit.otherDict => none)

/-- The disambiguation listing's flattening (line 278):
`" & ".join(ac_names) if ac_names else "(Unknown Artist)"`. -/
def ac_joined (credits : List ArtistCredit) : String :=
  let names := credit_names credits
  if names = [] then "(Unknown Artist)" else String.intercalate " & " names

/-- The release-level report's flattening (line 332):
`" & ".join(mb_artists) if mb_artists else "Unknown MB Artist"`. -/
def mb_artist_line_join (credits : List ArtistCredit) : String :=
  let names := credit_names credits
  if names = [] then "Unknown MB Artist" else String.intercalate " & " names

/-! ### Concrete fixtures used by witnesses and counterexamples -/

/-- Build a release with the given per-medium track counts. -/
def mkRel (mediums : List Nat) (rg : Option ReleaseGroup) (title : String) : Release :=
  ⟨some title, some title, [], rg, mediums.map (fun k => ⟨List.replicate k default⟩)⟩

def egRGA : ReleaseGroup := ⟨some "rga", some "A"⟩

def egRGB : ReleaseGroup := ⟨some "rgb", some "B"⟩

def egRGC : ReleaseGroup := ⟨some "rgc", some "C"⟩

def egRelA : Release := mkRel [10] (some egRGA) "relA"

def egRelB : Release := mkRel [12] (some egRGB) "relB"

def egRelC : Release := mkRel [15] (some egRGC) "relC"

def egRelD : Release := mkRel [8] (some egRGA) "relD"

def egRelNoRG : Release := mkRel [9] none "relNoRG"

/-- Two candidates in distinct groups, track counts 10 and 12. -/
def egFoundAuto : List SearchItem := [⟨"ra", some egRelA⟩, ⟨"rb", some egRelB⟩]

/-- Three candidates in distinct groups with track counts 12, 8, 15. -/
def egFoundTie : List SearchItem :=
  [⟨"rb", some egRelB⟩, ⟨"rd", some egRelD⟩, ⟨"rc", some egRelC⟩]

/-- A candidate set with one failing detail fetch. -/
def egFoundPartial : List SearchItem :=
  [⟨"ra", some egRelA⟩, ⟨"rx", none⟩, ⟨"rb", some egRelB⟩]

def egTrackNone : LocalTrack := ⟨"", "", "a.mp3", "a", none, none⟩

def egTrackBig : LocalTrack := ⟨"", "", "b.mp3", "b", none, some "10000"⟩

def egTrackFive : LocalTrack := ⟨"", "", "c.mp3", "c", none, some "5"⟩

/-! ### Helper lemmas: renderer -/

/-- The Boolean unification test decoded into a proposition. -/
lemma unify_cond_iff (u : Bool) (l r : String) :
    (u && !(pyStrip l == "") && (l == r)) = true ↔
      (u = true ∧ pyStrip l ≠ "" ∧ l = r) := by
  simp [Bool.and_eq_true, and_assoc]

/-- `side_by_side_format` factors as alignment followed by rendering. -/
lemma side_by_side_format_eq_render (ll lr : List String) (w : Nat) (u : Bool) :
    side_by_side_format ll lr w u = (side_by_side_align ll lr u).map (renderAligned w) := by
  unfold side_by_side_format side_by_side_align
  rw [List.map_map]
  apply List.map_congr_left
  intro i _
  by_cases h : (u && !(pyStrip (ll.getD i "") == "") && (ll.getD i "" == lr.getD i "")) = true
  · simp only [Function.comp_apply, if_pos h, renderAligned]
  · simp only [Function.comp_apply, if_neg h, renderAligned]

/-- Element `i` of the aligned output, for `i` in range. -/
lemma side_by_side_align_getElem (ll lr : List String) (u : Bool) (i : Nat)
    (h : i < max ll.length lr.length) :
    (side_by_side_align ll lr u)[i]? =
      some (if u && !(pyStrip (ll.getD i "") == "") && (ll.getD i "" == lr.getD i "") then
              AlignedLine.Unified (ll.getD i "")
            else AlignedLine.Paired (ll.getD i "") (lr.getD i "")) := by
  unfold side_by_side_align
  rw [List.getElem?_map, List.getElem?_range h, Option.map_some']

/-! ### Claim C2: alignment totality -/

/-- C2: for all sequences of strings `lines_left` and `lines_right`, every
width and every unify flag, the output of `side_by_side_format` has length
exactly `max (length lines_left) (length lines_right)`. -/
theorem side_by_side_format_length (ll lr : List String) (w : Nat) (u : Bool) :
    (side_by_side_format ll lr w u).length = max ll.length lr.length := by
  unfold side_by_side_format
  rw [List.length_map, List.length_range]

/-! ### Claim C3: unification condition -/

/-- C3 counterexample: with `unifyIdentical = true`, a left value `" "`
that is non-empty and equal to the right value is nevertheless emitted as a
`Paired` line, because the code tests `l.strip()` (non-whitespace content),
not non-emptiness; the claim as stated would require a `Unified` line
here. -/
theorem side_by_side_align_blank_cex :
    (" " : String) ≠ "" ∧
    side_by_side_align [" "] [" "] true = [AlignedLine.Paired " " " "] := by
  decide

/-- C3 amended: the line at index `i` is `Unified` iff `unifyIdentical` is
true, the left value at `i` (empty when absent) has non-whitespace content
(`l.strip()` is non-empty), and it equals the right value at `i` (empty
when absent); in every other case it is a `Paired` line carrying exactly
the original left and right values. -/
theorem side_by_side_align_unified_iff (ll lr : List String) (u : Bool) (i : Nat)
    (h : i < max ll.length lr.length) :
    ((side_by_side_align ll lr u)[i]? = some (AlignedLine.Unified (ll.getD i ""))
      ↔ (u = true ∧ pyStrip (ll.getD i "") ≠ "" ∧ ll.getD i "" = lr.getD i "")) ∧
    (¬(u = true ∧ pyStrip (ll.getD i "") ≠ "" ∧ ll.getD i "" = lr.getD i "") →
      (side_by_side_align ll lr u)[i]? =
        some (AlignedLine.Paired (ll.getD i "") (lr.getD i ""))) := by
  rw [side_by_side_align_getElem ll lr u i h]
  by_cases hc : (u && !(pyStrip (ll.getD i "") == "") && (ll.getD i "" == lr.getD i "")) = true
  · have hc' := (unify_cond_iff u (ll.getD i "") (lr.getD i "")).mp hc
    rw [if_pos hc]
    exact ⟨⟨fun _ => hc', fun _ => rfl⟩, fun hn => absurd hc' hn⟩
  · have hc' : ¬(u = true ∧ pyStrip (ll.getD i "") ≠ "" ∧ ll.getD i "" = lr.getD i "") :=
      fun hp => hc ((unify_cond_iff u (ll.getD i "") (lr.getD i "")).mpr hp)
    rw [if_neg hc]
    refine ⟨⟨fun heq => ?_, fun hp => absurd hp hc'⟩, fun _ => rfl⟩
    exact absurd (Option.some.inj heq) (by simp)

/-- C3 witness: a concrete identical, non-blank pair is unified. -/
theorem side_by_side_align_unified_iff_witness :
    (side_by_side_align ["Artist: A"] ["Artist: A"] true)[0]? =
      some (AlignedLine.Unified "Artist: A") :=
  (side_by_side_align_unified_iff ["Artist: A"] ["Artist: A"] true 0 (by decide)).1.mpr
    ⟨rfl, by decide, rfl⟩

/-! ### Claim C4: artist-credit flattening -/

/-- C4 counterexample: the release-level report section renders an empty
artist-credit list as `"Unknown MB Artist"`, not as the fixed placeholder
`"(Unknown Artist)"` which only the disambiguation listing uses. -/
theorem artist_credit_placeholder_cex :
    mb_artist_line_join [] = "Unknown MB Artist" ∧
    mb_artist_line_join [] ≠ "(Unknown Artist)" ∧
    ac_joined [] = "(Unknown Artist)" := by
  decide

/-- C4 amended: at both flattening sites all resolved names (bare strings
or dicts with an `artist.name`) are joined with `" & "`; an empty resolved
list renders as `"(Unknown Artist)"` in the disambiguation listing but as
`"Unknown MB Artist"` in the release-level report section. -/
theorem artist_credit_flatten (credits : List ArtistCredit) :
    (credit_names credits ≠ [] →
        ac_joined credits = String.intercalate " & " (credit_names credits) ∧
        mb_artist_line_join credits = String.intercalate " & " (credit_names credits)) ∧
    (credit_names credits = [] →
        ac_joined credits = "(Unknown Artist)" ∧
        mb_artist_line_join credits = "Unknown MB Artist") := by
  unfold ac_joined mb_artist_line_join
  by_cases h : credit_names credits = [] <;> simp [h]

/-- C4 witness: a mixed credit list flattens to its `" & "`-join at both
sites. -/
theorem artist_credit_flatten_witness :
    ac_joined [ArtistCredit.nameStr "A", ArtistCredit.credited "B"] = "A & B" ∧
    mb_artist_line_join [ArtistCredit.nameStr "A", ArtistCredit.credited "B"] = "A & B" := by
  have h := (artist_credit_flatten [ArtistCredit.nameStr "A", ArtistCredit.credited "B"]).1
    (by decide)
  exact ⟨h.1.trans (by decide), h.2.trans (by decide)⟩

/-! ### Claim C5: missing-track-number sentinel -/

/-- C5 counterexample: a track with no track number receives the sentinel
9999, so it sorts BEFORE a same-subdirectory track whose valid numeric
track number is 10000, contradicting the claim that a null-numbered track
sorts after every numerically-numbered track of its subdirectory. -/
theorem track_sort_sentinel_cex :
    egTrackNone.subdir = egTrackBig.subdir ∧
    egTrackNone.tracknumber = none ∧
    pyInt "10000" = some 10000 ∧
    ¬ keyLt (track_sort_key egTrackBig) (track_sort_key egTrackNone) ∧
    keyLt (track_sort_key egTrackNone) (track_sort_key egTrackBig) := by
  decide

/-- C5 amended: a null or non-numeric track number is assigned the sentinel
9999, so such a track sorts after every track in the same subdirectory
whose valid numeric track number is below 9999 (not after arbitrarily large
ones); subdirectory (lexicographic) stays the primary key and the numeric
value the secondary key. -/
theorem track_sort_sentinel (t1 t2 : LocalTrack) (s : String) (v : Int)
    (hsub : t1.subdir = t2.subdir)
    (hinv : ∀ s1, t1.tracknumber = some s1 → pyInt s1 = none)
    (hnum : t2.tracknumber = some s) (hv : pyInt s = some v) (hlt : v < 9999) :
    keyLt (track_sort_key t2) (track_sort_key t1) ∧
    (∀ u1 u2 : LocalTrack, u1.subdir.data < u2.subdir.data →
        keyLt (track_sort_key u1) (track_sort_key u2)) := by
  constructor
  · have h1 : track_num t1.tracknumber = 9999 := by
      cases ht : t1.tracknumber with
      | none => rfl
      | some s1 =>
        unfold track_num
        by_cases he : s1 = ""
        · simp [he]
        · simp [he, hinv s1 ht]
    have hs : s ≠ "" := by
      intro he
      have h0 : pyInt "" = none := rfl
      rw [he, h0] at hv
      cases hv
    have h2 : track_num t2.tracknumber = v := by
      rw [hnum]
      unfold track_num
      simp [hs, hv]
    refine Or.inr ⟨?_, ?_⟩
    · simp [track_sort_key, hsub]
    · simp only [track_sort_key]
      rw [h1, h2]
      exact hlt
  · intro u1 u2 h
    exact Or.inl h

/-- C5 witness: a track numbered `"5"` sorts before the untagged track of
the same subdirectory. -/
theorem track_sort_sentinel_witness :
    keyLt (track_sort_key egTrackFive) (track_sort_key egTrackNone) :=
  (track_sort_sentinel egTrackNone egTrackFive "5" 5 rfl
    (fun s1 h => by simp [egTrackNone] at h) rfl (by decide) (by decide)).1

/-! ### Claim C6: paired-line rendering -/

/-- C6 counterexample: a left text of length 4 rendered at column width 2
is emitted whole — the format spec `f"{l:<{w}}"` pads but never truncates —
so the claim's "truncated to the fixed column width" fails (the truncating
behaviour would give `"ab | x"`). -/
theorem paired_render_no_truncation_cex :
    side_by_side_format ["abcd"] ["x"] 2 true = ["abcd | x"] ∧
    ("abcd" : String).length > 2 ∧
    side_by_side_format ["abcd"] ["x"] 2 true ≠ ["ab | x"] := by
  decide

/-- C6 amended: a `Paired` line renders as the left text padded on the
right with spaces up to the column width — never truncated, so a left text
longer than the width is output in full — followed by the separator
`" | "`, followed by the right text with no padding or truncation; and
`side_by_side_format` is exactly this rendering mapped over the aligned
lines. -/
theorem paired_render_spec (w : Nat) (l r : String) :
    (∃ pad : String,
        pad.data = List.replicate (w - l.length) ' ' ∧
        renderAligned w (AlignedLine.Paired l r) = l ++ pad ++ " | " ++ r ∧
        (l ++ pad).length = max w l.length) ∧
    (w ≤ l.length → renderAligned w (AlignedLine.Paired l r) = l ++ " | " ++ r) ∧
    (∀ ll lr u, side_by_side_format ll lr w u =
        (side_by_side_align ll lr u).map (renderAligned w)) := by
  refine ⟨⟨String.mk (List.replicate (w - l.length) ' '), rfl, ?_, ?_⟩, ?_, ?_⟩
  · simp [renderAligned, padColumn, String.append_assoc]
  · simp [String.length_append]
    omega
  · intro hw
    have h0 : w - l.length = 0 := Nat.sub_eq_zero_of_le hw
    simp [renderAligned, padColumn, h0]
  · intro ll lr u
    exact side_by_side_format_eq_render ll lr w u

/-- C6 witness: the no-truncation branch evaluated at width 2. -/
theorem paired_render_spec_witness :
    renderAligned 2 (AlignedLine.Paired "abcd" "x") = "abcd" ++ " | " ++ "x" :=
  (paired_render_spec 2 "abcd" "x").2.1 (by decide)

/-! ### Helper lemmas: stable sort on candidates -/

/-- Inserting an element below everything in the list puts it in front. -/
lemma orderedInsert_eq_cons (x : RGCand) (s : List RGCand)
    (h : ∀ y ∈ s, candLE x y) :
    List.orderedInsert candLE x s = x :: s := by
  cases s with
  | nil => rfl
  | cons b t => exact List.orderedInsert_of_le candLE t (h b (List.mem_cons_self b t))

/-- Inserting an element that fails the filter leaves the filter output
unchanged. -/
lemma filter_orderedInsert_not (x : RGCand) (s : List RGCand) (p : RGCand → Bool)
    (hx : p x = false) :
    (List.orderedInsert candLE x s).filter p = s.filter p := by
  induction s with
  | nil => simp [List.orderedInsert, hx]
  | cons b t ih =>
    by_cases hbx : candLE x b
    · rw [List.orderedInsert_of_le candLE t hbx]
      simp [List.filter_cons, hx]
    · simp only [List.orderedInsert, if_neg hbx]
      cases hpb : p b <;> simp [List.filter_cons, hpb, ih]

/-- Stability at the minimum: filtering the stable sort at a global lower
bound `m` of the keys gives the same sequence as filtering the unsorted
list. -/
lemma filter_min_insertionSort (l : List RGCand) (m : Nat)
    (hmin : ∀ c ∈ l, m ≤ c.best_diff) :
    (List.insertionSort candLE l).filter (fun c => c.best_diff == m) =
      l.filter (fun c => c.best_diff == m) := by
  induction l with
  | nil => rfl
  | cons x t ih =>
    have hmt : ∀ c ∈ t, m ≤ c.best_diff := fun c hc => hmin c (List.mem_cons_of_mem x hc)
    show (List.orderedInsert candLE x (List.insertionSort candLE t)).filter _ = _
    by_cases hx : x.best_diff = m
    · have hall : ∀ y ∈ List.insertionSort candLE t, candLE x y := by
        intro y hy
        show x.best_diff ≤ y.best_diff
        rw [hx]
        exact hmt y ((List.mem_insertionSort candLE).mp hy)
      rw [orderedInsert_eq_cons x _ hall]
      simp only [List.filter_cons]
      rw [ih hmt]
    · have hpx : (fun c : RGCand => c.best_diff == m) x = false := by simp [hx]
      rw [filter_orderedInsert_not x _ _ hpx, ih hmt]
      simp [List.filter_cons, hpx]

/-- `min_diff` is a lower bound for every candidate's difference. -/
lemma min_diff_of_le (found : List SearchItem) (n : Nat) (c : RGCand)
    (hc : c ∈ rg_candidates_of found n) :
    min_diff_of found n ≤ c.best_diff := by
  have hmem : c ∈ sorted_candidates_of found n := (List.mem_insertionSort candLE).mpr hc
  have hs : List.Sorted candLE (sorted_candidates_of found n) :=
    List.sorted_insertionSort candLE _
  unfold min_diff_of
  cases h : sorted_candidates_of found n with
  | nil =>
    rw [h] at hmem
    cases hmem
  | cons a t =>
    rw [h] at hmem hs
    simp only [List.headD_cons]
    cases List.mem_cons.mp hmem with
    | inl he => rw [he]
    | inr ht => exact List.rel_of_sorted_cons hs c ht

/-- `min_diff` is attained by some candidate (non-empty case). -/
lemma min_diff_of_mem (found : List SearchItem) (n : Nat)
    (hne : rg_candidates_of found n ≠ []) :
    ∃ c ∈ rg_candidates_of found n, c.best_diff = min_diff_of found n := by
  cases h : sorted_candidates_of found n with
  | nil =>
    exfalso
    apply hne
    have hp : List.Perm (rg_candidates_of found n) (sorted_candidates_of found n) :=
      (List.perm_insertionSort candLE _).symm
    rw [h] at hp
    exact List.Perm.eq_nil hp
  | cons a t =>
    refine ⟨a, ?_, ?_⟩
    · have ha : a ∈ sorted_candidates_of found n := by
        rw [h]
        exact List.mem_cons_self a t
      exact (List.mem_insertionSort candLE).mp ha
    · unfold min_diff_of
      rw [h]
      rfl

/-- The tied best list is exactly the minimum-achieving candidates in their
original (first-encounter) order: the in-place sort is stable. -/
lemma tied_best_list_eq (found : List SearchItem) (n : Nat) :
    tied_best_list found n =
      (rg_candidates_of found n).filter
        (fun c => c.best_diff == min_diff_of found n) := by
  unfold tied_best_list sorted_candidates_of
  exact filter_min_insertionSort _ _ (fun c hc => min_diff_of_le found n c hc)

/-! ### Helper lemmas: grouping -/

/-- Effect of one `setdefault(...).append(...)` on a bucket's members. -/
lemma group_members_insert (gs : GroupBuckets) (key k : String) (rel : Release) :
    group_members (insert_group gs key rel) k =
      if key = k then group_members gs k ++ [rel] else group_members gs k := by
  induction gs with
  | nil =>
    by_cases h : key = k <;> simp [insert_group, group_members, h]
  | cons g rest ih =>
    obtain ⟨k0, r0, rs⟩ := g
    by_cases h0 : k0 = key
    · by_cases hk : key = k
      · simp [insert_group, group_members, h0, hk, h0.trans hk]
      · have h0k : ¬ k0 = k := fun he => hk (h0.symm.trans he)
        simp [insert_group, group_members, h0, hk, h0k]
    · by_cases hk : k0 = k
      · have hkey : ¬ key = k := fun he => h0 (hk.trans he.symm)
        have hkk : ¬ k = key := fun he => h0 (hk.trans he)
        simp [insert_group, group_members, h0, hk, hkey, hkk]
      · simp [insert_group, group_members, h0, hk, ih]

/-- Members of each bucket after the whole grouping loop, relative to an
arbitrary starting dict. -/
lemma group_members_foldl (l : List SearchItem) (gs : GroupBuckets) (k : String) :
    group_members
        (l.foldl
          (fun gs item =>
            match item.fetch with
            | none => gs
            | some rel => insert_group gs (rg_key item.rid rel) rel)
          gs) k =
      group_members gs k ++
        (((successes l).filter (fun p => rg_key p.1.rid p.2 == k)).map
          (fun p => p.2)) := by
  induction l generalizing gs with
  | nil => simp [successes]
  | cons item rest ih =>
    cases hf : item.fetch with
    | none =>
      rw [List.foldl_cons]
      simp only [hf]
      rw [ih]
      simp [successes, List.filterMap_cons, hf]
    | some rel =>
      rw [List.foldl_cons]
      simp only [hf]
      rw [ih, group_members_insert]
      by_cases hk : rg_key item.rid rel = k
      · simp [successes, List.filterMap_cons, hf, hk]
      · simp [successes, List.filterMap_cons, hf, hk]

/-- The grouping loop puts exactly the surviving releases whose `rg_key`
is `k` into the bucket keyed `k`, in search order. -/
lemma group_members_build (found : List SearchItem) (k : String) :
    group_members (build_groups found) k =
      ((successes found).filter (fun p => rg_key p.1.rid p.2 == k)).map
        (fun p => p.2) := by
  unfold build_groups
  rw [group_members_foldl]
  simp [group_members]

/-- Effect of one insertion on the bucket key sequence. -/
lemma group_keys_insert (gs : GroupBuckets) (key : String) (rel : Release) :
    group_keys (insert_group gs key rel) =
      if key ∈ group_keys gs then group_keys gs else group_keys gs ++ [key] := by
  induction gs with
  | nil => simp [insert_group, group_keys]
  | cons g rest ih =>
    obtain ⟨k0, r0, rs⟩ := g
    by_cases h0 : k0 = key
    · subst h0
      simp [insert_group, group_keys]
    · simp only [insert_group, if_neg h0, group_keys, List.map_cons]
      have hne : ¬ key = k0 := fun he => h0 he.symm
      by_cases hmem : key ∈ group_keys rest
      · simp only [group_keys] at ih hmem
        simp [ih, hmem, List.mem_cons, hne]
      · simp only [group_keys] at ih hmem
        simp [ih, hmem, List.mem_cons, hne]

/-- The bucket key sequence after the whole grouping loop, relative to an
arbitrary starting dict: new keys are appended in order of first
appearance. -/
lemma group_keys_foldl (l : List SearchItem) (gs : GroupBuckets) :
    group_keys
        (l.foldl
          (fun gs item =>
            match item.fetch with
            | none => gs
            | some rel => insert_group gs (rg_key item.rid rel) rel)
          gs) =
      group_keys gs ++
        dedupKeep (((successes l).map (fun p => rg_key p.1.rid p.2)).filter
          (fun x => decide (x ∉ group_keys gs))) := by
  induction l generalizing gs with
  | nil => simp [successes, dedupKeep]
  | cons item rest ih =>
    cases hf : item.fetch with
    | none =>
      rw [List.foldl_cons]
      simp only [hf]
      rw [ih]
      simp [successes, List.filterMap_cons, hf]
    | some rel =>
      rw [List.foldl_cons]
      simp only [hf]
      rw [ih, group_keys_insert]
      have hsux : successes (item :: rest) = (item, rel) :: successes rest := by
        simp [successes, List.filterMap_cons, hf]
      rw [hsux]
      by_cases hmem : rg_key item.rid rel ∈ group_keys gs
      · rw [if_pos hmem]
        simp only [List.map_cons, List.filter_cons]
        rw [decide_eq_false (by simpa using hmem)]
        simp
      · rw [if_neg hmem]
        simp only [List.map_cons, List.filter_cons]
        rw [decide_eq_true hmem]
        have hsplit :
            ((successes rest).map (fun p => rg_key p.1.rid p.2)).filter
                (fun x => decide (x ∉ group_keys gs ++ [rg_key item.rid rel])) =
              (((successes rest).map (fun p => rg_key p.1.rid p.2)).filter
                  (fun x => decide (x ∉ group_keys gs))).filter
                (fun x => x != rg_key item.rid rel) := by
          rw [List.filter_filter]
          apply List.filter_congr
          intro x _
          by_cases h1 : x ∈ group_keys gs <;> by_cases h2 : x = rg_key item.rid rel <;>
            simp [h1, h2]
        rw [hsplit]
        show _ ++ _ = _ ++ (dedupKeep (_ :: _))
        rw [dedupKeep]
        simp [List.append_assoc]

/-- The bucket keys of the grouping are exactly the distinct `rg_key`
values of the surviving candidates, in order of first encounter. -/
lemma group_keys_build (found : List SearchItem) :
    group_keys (build_groups found) =
      dedupKeep ((successes found).map (fun p => rg_key p.1.rid p.2)) := by
  unfold build_groups
  rw [group_keys_foldl]
  have : ((successes found).map (fun p => rg_key p.1.rid p.2)).filter
      (fun x => decide (x ∉ group_keys [])) =
      (successes found).map (fun p => rg_key p.1.rid p.2) := by
    apply List.filter_eq_self.mpr
    intro x _
    simp [group_keys]
  rw [this]
  simp [group_keys]

/-- Dropping the failed fetches does not change the grouping. -/
lemma build_groups_filter_isSome (found : List SearchItem) :
    build_groups (found.filter (fun i => i.fetch.isSome)) = build_groups found := by
  unfold build_groups
  suffices h : ∀ (l : List SearchItem) (gs : GroupBuckets),
      (l.filter (fun i => i.fetch.isSome)).foldl
          (fun gs item =>
            match item.fetch with
            | none => gs
            | some rel => insert_group gs (rg_key item.rid rel) rel)
          gs =
        l.foldl
          (fun gs item =>
            match item.fetch with
            | none => gs
            | some rel => insert_group gs (rg_key item.rid rel) rel)
          gs by
    exact h found []
  intro l
  induction l with
  | nil => intro gs; rfl
  | cons item rest ih =>
    intro gs
    cases hf : item.fetch with
    | none =>
      rw [List.filter_cons, List.foldl_cons]
      simp only [hf, Option.isSome_none, cond_false]
      exact ih gs
    | some rel =>
      rw [List.filter_cons]
      simp only [hf, Option.isSome_some]
      rw [if_pos trivial, List.foldl_cons, List.foldl_cons]
      simp only [hf]
      exact ih (insert_group gs (rg_key item.rid rel) rel)

/-- If every detail fetch failed, the grouping is empty. -/
lemma build_groups_all_none (found : List SearchItem)
    (h : ∀ item ∈ found, item.fetch = none) :
    build_groups found = [] := by
  unfold build_groups
  induction found with
  | nil => rfl
  | cons item rest ih =>
    rw [List.foldl_cons]
    simp only [h item (List.mem_cons_self item rest)]
    exact ih (fun i hi => h i (List.mem_cons_of_mem item hi))

/-! ### Helper lemmas: the per-group scan -/

/-- One step of the per-group scan: the strictly-smaller test keeps the
earlier release on ties. -/
lemma best_in_group_cons (b0 r : Release) (rest : List Release) (n : Nat) :
    best_in_group b0 (r :: rest) n =
      if track_diff r n < track_diff b0 n then best_in_group r rest n
      else best_in_group b0 rest n := by
  unfold best_in_group
  rw [List.foldl_cons]
  by_cases h : track_diff r n < track_diff b0 n <;> simp [h]

/-- On a non-empty group the source scan `get_best_release_for_rg` returns
exactly the non-empty-scan result, wrapped in `some`. -/
lemma get_best_release_for_rg_cons (r0 : Release) (rest : List Release) (n : Nat) :
    get_best_release_for_rg (r0 :: rest) n =
      (some (best_in_group r0 rest n).1, some (best_in_group r0 rest n).2) := by
  unfold get_best_release_for_rg
  rw [List.foldl_cons]
  show List.foldl _ (some r0, some (track_diff r0 n)) rest = _
  induction rest generalizing r0 with
  | nil => rfl
  | cons r rest ih =>
    rw [List.foldl_cons, best_in_group_cons]
    by_cases h : track_diff r n < track_diff r0 n
    · rw [if_pos h]
      show List.foldl _ (if track_diff r n < track_diff r0 n then _ else _) rest = _
      rw [if_pos h]
      exact ih r
    · rw [if_neg h]
      show List.foldl _ (if track_diff r n < track_diff r0 n then _ else _) rest = _
      rw [if_neg h]
      exact ih r0

/-- The non-empty scan returns the first element attaining the minimum
track-count difference: its difference is a lower bound for all elements,
and every element strictly before it has a strictly larger difference (the
`some`-index case), or the start element itself wins (the head case). -/
lemma best_in_group_first_min (rest : List Release) (n : Nat) : ∀ b0 : Release,
    (best_in_group b0 rest n).2 = track_diff (best_in_group b0 rest n).1 n ∧
    (((best_in_group b0 rest n).1 = b0 ∧
        ∀ x ∈ rest, track_diff b0 n ≤ track_diff x n) ∨
      (∃ i : Nat, rest[i]? = some (best_in_group b0 rest n).1 ∧
        (best_in_group b0 rest n).2 < track_diff b0 n ∧
        (∀ (j : Nat) (y : Release), rest[j]? = some y →
          (best_in_group b0 rest n).2 ≤ track_diff y n) ∧
        (∀ (j : Nat) (y : Release), j < i → rest[j]? = some y →
          (best_in_group b0 rest n).2 < track_diff y n))) := by
  induction rest with
  | nil =>
    intro b0
    exact ⟨rfl, Or.inl ⟨rfl, by simp⟩⟩
  | cons r rest ih =>
    intro b0
    rw [best_in_group_cons]
    by_cases h : track_diff r n < track_diff b0 n
    · rw [if_pos h]
      obtain ⟨hd, hcase⟩ := ih r
      refine ⟨hd, Or.inr ?_⟩
      cases hcase with
      | inl hk =>
        obtain ⟨hb, hall⟩ := hk
        refine ⟨0, ?_, ?_, ?_, ?_⟩
        · simp [hb]
        · rw [hd, hb]
          exact h
        · intro j y hy
          cases j with
          | zero =>
            simp only [List.getElem?_cons_zero, Option.some.injEq] at hy
            rw [hd, hb, ← hy]
          | succ j =>
            rw [List.getElem?_cons_succ] at hy
            have hmem : y ∈ rest := List.getElem?_mem hy
            rw [hd, hb]
            exact hall y hmem
        · intro j y hj hy
          exact absurd hj (Nat.not_lt_zero j)
      | inr hr =>
        obtain ⟨i, hi, hlt, hbound, hstrict⟩ := hr
        refine ⟨i + 1, ?_, ?_, ?_, ?_⟩
        · rw [List.getElem?_cons_succ]
          exact hi
        · exact Nat.lt_trans hlt h
        · intro j y hy
          cases j with
          | zero =>
            simp only [List.getElem?_cons_zero, Option.some.injEq] at hy
            rw [← hy]
            exact Nat.le_of_lt hlt
          | succ j =>
            rw [List.getElem?_cons_succ] at hy
            exact hbound j y hy
        · intro j y hj hy
          cases j with
          | zero =>
            simp only [List.getElem?_cons_zero, Option.some.injEq] at hy
            rw [← hy]
            exact hlt
          | succ j =>
            rw [List.getElem?_cons_succ] at hy
            exact hstrict j y (Nat.lt_of_succ_lt_succ hj) hy
    · rw [if_neg h]
      have hge : track_diff b0 n ≤ track_diff r n := Nat.le_of_not_lt h
      obtain ⟨hd, hcase⟩ := ih b0
      refine ⟨hd, ?_⟩
      cases hcase with
      | inl hk =>
        obtain ⟨hb, hall⟩ := hk
        refine Or.inl ⟨hb, ?_⟩
        intro x hx
        cases List.mem_cons.mp hx with
        | inl he => rw [he]; exact hge
        | inr hm => exact hall x hm
      | inr hr =>
        obtain ⟨i, hi, hlt, hbound, hstrict⟩ := hr
        refine Or.inr ⟨i + 1, ?_, hlt, ?_, ?_⟩
        · rw [List.getElem?_cons_succ]
          exact hi
        · intro j y hy
          cases j with
          | zero =>
            simp only [List.getElem?_cons_zero, Option.some.injEq] at hy
            rw [← hy]
            exact Nat.le_of_lt (Nat.lt_of_lt_of_le hlt hge)
          | succ j =>
            rw [List.getElem?_cons_succ] at hy
            exact hbound j y hy
        · intro j y hj hy
          cases j with
          | zero =>
            simp only [List.getElem?_cons_zero, Option.some.injEq] at hy
            rw [← hy]
            exact Nat.lt_of_lt_of_le hlt hge
          | succ j =>
            rw [List.getElem?_cons_succ] at hy
            exact hstrict j y (Nat.lt_of_succ_lt_succ hj) hy

/-- A string whose `int` parse succeeds is non-empty after stripping. -/
lemma pyInt_some_strip_ne (s : String) (v : Int) (h : pyInt s = some v) :
    pyStrip s ≠ "" := by
  intro he
  have h2 : pyInt s = none := by
    unfold pyInt
    rw [he]
    rfl
  rw [h2] at h
  cases h

/-! ### Claim C1: unique-minimum auto-selection -/

/-- C1: when exactly one release-group candidate attains the minimum
track-count difference, `find_best_release_group` returns that candidate's
representative release and release-group dict for every input stream — in
particular for the empty one, so no disambiguation prompt is consumed; and
`get_best_release_for_rg` picks as representative the first-encountered
member of the group attaining the smallest difference. -/
theorem find_best_release_group_unique_min (found : List SearchItem) (n : Nat)
    (c : RGCand)
    (huniq : (rg_candidates_of found n).filter
        (fun x => x.best_diff == min_diff_of found n) = [c]) :
    (∀ inputs : List String,
        find_best_release_group found n inputs = some (some (c.best_rel, c.rg_dict))) ∧
    (∀ (r0 : Release) (rest : List Release),
        ∃ b d, get_best_release_for_rg (r0 :: rest) n = (some b, some d) ∧
          d = track_diff b n ∧
          ∃ i : Nat, (r0 :: rest)[i]? = some b ∧
            (∀ (j : Nat) (y : Release), (r0 :: rest)[j]? = some y → d ≤ track_diff y n) ∧
            (∀ (j : Nat) (y : Release), j < i → (r0 :: rest)[j]? = some y →
              d < track_diff y n)) := by
  constructor
  · intro inputs
    have htied : tied_best_list found n = [c] := by
      rw [tied_best_list_eq]
      exact huniq
    have hne : rg_candidates_of found n ≠ [] := by
      intro h0
      rw [h0] at huniq
      exact absurd huniq (by simp)
    have hfound : ¬ found = [] := by
      intro h0
      apply hne
      rw [h0]
      rfl
    have hgroups : ¬ build_groups found = [] := by
      intro h0
      apply hne
      unfold rg_candidates_of
      rw [h0]
      rfl
    unfold find_best_release_group
    rw [if_neg hfound, if_neg hgroups, htied]
    simp
  · intro r0 rest
    refine ⟨(best_in_group r0 rest n).1, (best_in_group r0 rest n).2,
      get_best_release_for_rg_cons r0 rest n, ?_, ?_⟩
    · exact (best_in_group_first_min rest n r0).1
    · obtain ⟨hd, hcase⟩ := best_in_group_first_min rest n r0
      cases hcase with
      | inl hk =>
        obtain ⟨hb, hall⟩ := hk
        refine ⟨0, by simp [hb], ?_, ?_⟩
        · intro j y hy
          cases j with
          | zero =>
            simp only [List.getElem?_cons_zero, Option.some.injEq] at hy
            rw [hd, hb, ← hy]
          | succ j =>
            rw [List.getElem?_cons_succ] at hy
            rw [hd, hb]
            exact hall y (List.getElem?_mem hy)
        · intro j y hj hy
          exact absurd hj (Nat.not_lt_zero j)
      | inr hr =>
        obtain ⟨i, hi, hlt, hbound, hstrict⟩ := hr
        refine ⟨i + 1, ?_, ?_, ?_⟩
        · rw [List.getElem?_cons_succ]
          exact hi
        · intro j y hy
          cases j with
          | zero =>
            simp only [List.getElem?_cons_zero, Option.some.injEq] at hy
            rw [← hy]
            exact Nat.le_of_lt hlt
          | succ j =>
            rw [List.getElem?_cons_succ] at hy
            exact hbound j y hy
        · intro j y hj hy
          cases j with
          | zero =>
            simp only [List.getElem?_cons_zero, Option.some.injEq] at hy
            rw [← hy]
            exact hlt
          | succ j =>
            rw [List.getElem?_cons_succ] at hy
            exact hstrict j y (Nat.lt_of_succ_lt_succ hj) hy

/-- C1 witness: track counts 10 and 12 in distinct groups against 10 local
tracks auto-select the 10-track release with an empty input stream. -/
theorem find_best_release_group_unique_min_witness :
    find_best_release_group egFoundAuto 10 [] = some (some (egRelA, some egRGA)) :=
  (find_best_release_group_unique_min egFoundAuto 10
    ⟨"rga", egRelA, 0, some egRGA⟩ (by decide)).1 []

/-! ### Claim C7: per-candidate fetch failures are non-fatal -/

/-- C7: a failed detail fetch never propagates out of
`find_best_release_group` — removing the failed candidates from the input
leaves the result unchanged, so each failing candidate is skipped while the
remaining ones are still processed; and when the search is empty or every
fetch fails, the function returns the `(None, None)` outcome instead of
raising. -/
theorem find_best_release_group_fetch_errors (found : List SearchItem) (n : Nat)
    (inputs : List String) :
    find_best_release_group found n inputs =
      find_best_release_group (found.filter (fun i => i.fetch.isSome)) n inputs ∧
    ((∀ item ∈ found, item.fetch = none) →
      find_best_release_group found n inputs = some none) := by
  constructor
  · by_cases hf : found = []
    · subst hf
      rfl
    · by_cases hg : build_groups found = []
      · unfold find_best_release_group
        rw [if_neg hf, if_pos hg]
        by_cases hf2 : found.filter (fun i => i.fetch.isSome) = []
        · rw [if_pos hf2]
        · rw [if_neg hf2, if_pos (by rw [build_groups_filter_isSome]; exact hg)]
      · have hg2 : ¬ build_groups (found.filter (fun i => i.fetch.isSome)) = [] := by
          rw [build_groups_filter_isSome]
          exact hg
        have hf2 : ¬ found.filter (fun i => i.fetch.isSome) = [] := by
          intro h0
          apply hg
          rw [← build_groups_filter_isSome, h0]
          rfl
        have hcand : rg_candidates_of (found.filter (fun i => i.fetch.isSome)) n =
            rg_candidates_of found n := by
          unfold rg_candidates_of
          rw [build_groups_filter_isSome]
        have hsort : sorted_candidates_of (found.filter (fun i => i.fetch.isSome)) n =
            sorted_candidates_of found n := by
          unfold sorted_candidates_of
          rw [hcand]
        have hmin : min_diff_of (found.filter (fun i => i.fetch.isSome)) n =
            min_diff_of found n := by
          unfold min_diff_of
          rw [hsort]
        have htied : tied_best_list (found.filter (fun i => i.fetch.isSome)) n =
            tied_best_list found n := by
          unfold tied_best_list
          rw [hsort, hmin]
        unfold find_best_release_group
        rw [if_neg hf, if_neg hf2, if_neg hg, if_neg hg2, htied]
  · intro hall
    by_cases hf : found = []
    · subst hf
      rfl
    · unfold find_best_release_group
      rw [if_neg hf, if_pos (build_groups_all_none found hall)]

/-- C7 witness: a candidate set with one failing fetch matches its
successes-only restriction, and an all-failures set yields `(None, None)`. -/
theorem find_best_release_group_fetch_errors_witness :
    (find_best_release_group egFoundPartial 10 [] =
      find_best_release_group (egFoundPartial.filter (fun i => i.fetch.isSome)) 10 []) ∧
    find_best_release_group [(⟨"rx", none⟩ : SearchItem)] 10 [] = some none :=
  ⟨(find_best_release_group_fetch_errors egFoundPartial 10 []).1,
   (find_best_release_group_fetch_errors [⟨"rx", none⟩] 10 []).2 (by decide)⟩

/-! ### Claim C8: disambiguation input handling -/

/-- C8: in the disambiguation loop, a selection that strips to the empty
string cancels to `(None, None)`; a non-numeric or out-of-range selection
consumes its line and re-prompts on the remaining input rather than
cancelling; a selection parsing to `v` with `1 ≤ v ≤ N` returns the
`v`-th (1-based) tied candidate's representative release and release-group
dict. -/
theorem resolve_tie_selection (best_list : List RGCand) (inputs : List String)
    (s : String) :
    (pyStrip s = "" → resolve_tie best_list (s :: inputs) = some none) ∧
    (pyStrip s ≠ "" → pyInt s = none →
        resolve_tie best_list (s :: inputs) = resolve_tie best_list inputs) ∧
    (∀ v : Int, pyInt s = some v → ¬(1 ≤ v ∧ v ≤ (best_list.length : Int)) →
        resolve_tie best_list (s :: inputs) = resolve_tie best_list inputs) ∧
    (∀ v : Int, pyInt s = some v → 1 ≤ v → v ≤ (best_list.length : Int) →
        resolve_tie best_list (s :: inputs) =
          some (some ((best_list.getD (v - 1).toNat default).best_rel,
                      (best_list.getD (v - 1).toNat default).rg_dict))) := by
  refine ⟨?_, ?_, ?_, ?_⟩
  · intro he
    simp [resolve_tie, he]
  · intro hne hint
    simp [resolve_tie, hne, hint]
  · intro v hint hrange
    have hne := pyInt_some_strip_ne s v hint
    simp [resolve_tie, hne, hint, hrange]
  · intro v hint h1 h2
    have hne := pyInt_some_strip_ne s v hint
    simp [resolve_tie, hne, hint, h1, h2]

/-- C8 witness: over the two tied candidates of the fixture, the input line
`"2"` selects the second candidate's representative. -/
theorem resolve_tie_selection_witness :
    resolve_tie (tied_best_list egFoundTie 10) ["2"] = some (some (egRelD, some egRGA)) :=
  ((resolve_tie_selection (tied_best_list egFoundTie 10) [] "2").2.2.2 2
    (by decide) (by decide) (by decide)).trans (by decide)

/-! ### Claim C9: tie reporting -/

/-- C9: the tied list the engine reports is exactly the candidates whose
representative difference equals the global minimum (never one with a
larger difference), in the first-encounter order of the candidate list; the
minimum is a true lower bound and is attained; and the candidate list
itself enumerates the release-groups in order of first encounter among the
successfully fetched search results. -/
theorem tie_report_spec (found : List SearchItem) (n : Nat)
    (hne : rg_candidates_of found n ≠ []) :
    tied_best_list found n =
      (rg_candidates_of found n).filter
        (fun c => c.best_diff == min_diff_of found n) ∧
    (∀ c ∈ rg_candidates_of found n, min_diff_of found n ≤ c.best_diff) ∧
    (∃ c ∈ rg_candidates_of found n, c.best_diff = min_diff_of found n) ∧
    (∀ c ∈ tied_best_list found n, c.best_diff = min_diff_of found n) ∧
    group_keys (build_groups found) =
      dedupKeep ((successes found).map (fun p => rg_key p.1.rid p.2)) := by
  refine ⟨tied_best_list_eq found n, fun c hc => min_diff_of_le found n c hc,
    min_diff_of_mem found n hne, ?_, group_keys_build found⟩
  intro c hc
  rw [tied_best_list_eq] at hc
  have hp := List.of_mem_filter hc
  simpa using hp

/-- C9 witness: representative differences 2, 2, 5 produce exactly the two
difference-2 candidates, in encounter order. -/
theorem tie_report_spec_witness :
    rg_candidates_of egFoundTie 10 ≠ [] ∧
    tied_best_list egFoundTie 10 =
      (rg_candidates_of egFoundTie 10).filter
        (fun c => c.best_diff == min_diff_of egFoundTie 10) ∧
    (rg_candidates_of egFoundTie 10).map (fun c => c.best_diff) = [2, 2, 5] ∧
    tied_best_list egFoundTie 10 =
      [⟨"rgb", egRelB, 2, some egRGB⟩, ⟨"rga", egRelD, 2, some egRGA⟩] :=
  ⟨by decide, (tie_report_spec egFoundTie 10 (by decide)).1, by decide, by decide⟩

/-! ### Claim C10: group-less releases never merge -/

/-- C10: the grouping buckets releases exactly by `rg_key`; a release with
no usable release-group (absent dict or missing id) is keyed by the
synthetic `"NO_RG_" + rid` built from its own search id, so two such
releases with distinct release ids always land in different groups, while
releases sharing a release-group id always share a key. -/
theorem grouping_spec (found : List SearchItem) (k : String) :
    (group_members (build_groups found) k =
      ((successes found).filter (fun p => rg_key p.1.rid p.2 == k)).map
        (fun p => p.2)) ∧
    (∀ (it : SearchItem) (rel : Release),
        (rel.release_group = none ∨
          ∃ rg, rel.release_group = some rg ∧ rg.id = none) →
        rg_key it.rid rel = "NO_RG_" ++ it.rid) ∧
    (∀ (i1 i2 : SearchItem) (r1 r2 : Release),
        (r1.release_group = none ∨
          ∃ rg, r1.release_group = some rg ∧ rg.id = none) →
        (r2.release_group = none ∨
          ∃ rg, r2.release_group = some rg ∧ rg.id = none) →
        i1.rid ≠ i2.rid → rg_key i1.rid r1 ≠ rg_key i2.rid r2) ∧
    (∀ (i1 i2 : SearchItem) (r1 r2 : Release) (rg1 rg2 : ReleaseGroup) (g : String),
        r1.release_group = some rg1 → rg1.id = some g →
        r2.release_group = some rg2 → rg2.id = some g →
        rg_key i1.rid r1 = rg_key i2.rid r2) := by
  have hkey : ∀ (it : SearchItem) (rel : Release),
      (rel.release_group = none ∨
        ∃ rg, rel.release_group = some rg ∧ rg.id = none) →
      rg_key it.rid rel = "NO_RG_" ++ it.rid := by
    intro it rel h
    cases h with
    | inl hn => simp [rg_key, hn]
    | inr he =>
      obtain ⟨rg, hrg, hid⟩ := he
      simp [rg_key, hrg, hid]
  refine ⟨group_members_build found k, hkey, ?_, ?_⟩
  · intro i1 i2 r1 r2 h1 h2 hne heq
    rw [hkey i1 r1 h1, hkey i2 r2 h2] at heq
    apply hne
    have hd := congrArg String.data heq
    simp only [String.data_append] at hd
    have := List.append_cancel_left hd
    exact congrArg String.mk this
  · intro i1 i2 r1 r2 rg1 rg2 g h1 hid1 h2 hid2
    simp [rg_key, h1, hid1, h2, hid2]

/-- C10 witness: the synthetic key of a group-less release, and two
group-less releases under distinct search ids receiving distinct keys. -/
theorem grouping_spec_witness :
    rg_key "rn" egRelNoRG = "NO_RG_" ++ "rn" ∧
    rg_key "r1" egRelNoRG ≠ rg_key "r2" egRelNoRG :=
  ⟨(grouping_spec [] "").2.1 ⟨"rn", none⟩ egRelNoRG (Or.inl (by decide)),
   (grouping_spec [] "").2.2.1 ⟨"r1", none⟩ ⟨"r2", none⟩ egRelNoRG egRelNoRG
     (Or.inl (by decide)) (Or.inl (by decide)) (by decide)⟩
